import Mathlib

/-!
Verification of the `ToCss` derive generator
(`servo/components/style_derive/to_css.rs`).

The generator is embedded shallowly: attribute bundles become structures,
the token streams emitted by `derive_variant_arm` / `derive_variant_fields_expr`
/ `derive_single_field_expr` become a small AST (`GExpr` / `GItem`), `assert!`
failures become `Except.error`, and the `where_clause.add_trait_bound` side
effect becomes explicit threading of a list of type names.  The generated
code's runtime behavior is given by an executable interpreter (`runGExpr`)
over a model of field values (`FieldVal`) and a text buffer; write failures
are injected through the field values' own renders.
-/

set_option autoImplicit false

namespace ToCss

/-- Type-level attributes, `CssInputAttrs` in the source.  `function` models
`Option<Override<String>>`: `none` = absent, `some none` = bare
`#[css(function)]`, `some (some s)` = explicit override string.
Fields in order: `derive_debug`, `function`, `comma`. -/
structure CssInputAttrs where
  derive_debug : Bool
  function : Option (Option String)
  comma : Bool
deriving DecidableEq

/-- Variant-level attributes, `CssVariantAttrs` in the source.
Fields in order: `function`, `comma`, `dimension`, `keyword`, `aliases`. -/
structure CssVariantAttrs where
  function : Option (Option String)
  comma : Bool
  dimension : Bool
  keyword : Option String
  aliases : Option String
deriving DecidableEq

/-- Field-level attributes, `CssFieldAttrs` in the source.
Fields in order: `if_empty`, `ignore_bound`, `iterable`, `skip`. -/
structure CssFieldAttrs where
  if_empty : Option String
  ignore_bound : Bool
  iterable : Bool
  skip : Bool
deriving DecidableEq

/-- Default field attributes: every directive absent. -/
def noFieldAttrs : CssFieldAttrs := ⟨none, false, false, false⟩

/-- One binding of a variant (`BindingInfo`): its declared type (abstracted to
a name, used only for bound collection) and its parsed field attributes.
Fields in order: `ty`, `attrs`. -/
structure Binding where
  ty : String
  attrs : CssFieldAttrs
deriving DecidableEq

/-- One variant (`VariantInfo`): its identifier, its bindings in declaration
order, and its parsed variant attributes.
Fields in order: `ident`, `bindings`, `attrs`. -/
structure Variant where
  ident : String
  bindings : List Binding
  attrs : CssVariantAttrs
deriving DecidableEq

/-- The derive input: identifier, whether the data is `Data::Enum`, the parsed
type-level attributes, and the variants.
Fields in order: `ident`, `isEnum`, `attrs`, `variants`. -/
structure DeriveInput where
  ident : String
  isEnum : Bool
  attrs : CssInputAttrs
  variants : List Variant
deriving DecidableEq

/-- Modelled from the spec: the canonical-identifier transform
(`cg::to_css_identifier`, an external collaborator not in the listed unit):
"a lowercasing/hyphenation-style identifier transform ... pure, total, and
order-preserving over the identifier's characters".  Camel case becomes
kebab case: every character is lowercased and a hyphen is inserted before
each interior uppercase character. -/
def camelKebab : List Char → Bool → List Char
  | [], _ => []
  | c :: rest, isFirst =>
    if c.isUpper && !isFirst then '-' :: c.toLower :: camelKebab rest false
    else c.toLower :: camelKebab rest false

/-- Modelled from the spec: canonical external spelling of a variant name. -/
def to_css_identifier (s : String) : String := ⟨camelKebab s.data true⟩

/-- One statement emitted inside a `SequenceWriter` block: `writer.item(#field)?`,
`for item in #field.iter() { writer.item(&item)?; }`, or the `if_empty`
peek-and-fallback form.  Fields are referred to by their binding index. -/
inductive GItem where
  | item (i : Nat)
  | iterItems (i : Nat)
  | iterIfEmpty (i : Nat) (fallback : String)
deriving DecidableEq

/-- The expression shapes the generator emits for one variant arm. -/
inductive GExpr where
  | writeStr (s : String)
  | ok
  | toCssField (i : Nat)
  | seq (a b : GExpr)
  | seqWriter (sep : String) (items : List GItem)
deriving DecidableEq

/-- Pairs every binding with its index, so the emitted AST can refer to the
binding it renders (standing in for the binding identifiers `__binding_0`,
... of the real token stream). -/
def indexFrom (n : Nat) : List Binding → List (Nat × Binding)
  | [] => []
  | b :: bs => (n, b) :: indexFrom (n + 1) bs

/-- The active (non-skip) bindings of a variant, with their indices: the
`filter_map` at the head of `derive_variant_fields_expr`. -/
def activeOf (bindings : List Binding) : List (Nat × Binding) :=
  (indexFrom 0 bindings).filter (fun p => !p.2.attrs.skip)

/-- `derive_single_field_expr` from the source: compile one non-skipped
field into a sequence-writer statement, adding a trait bound for the field's
type unless the field is iterable or `ignore_bound`. -/
def derive_single_field_expr (i : Nat) (field : Binding) (attrs : CssFieldAttrs)
    (wc : List String) : GItem × List String :=
  if attrs.iterable then
    match attrs.if_empty with
    | some if_empty => (GItem.iterIfEmpty i if_empty, wc)
    | none => (GItem.iterItems i, wc)
  else
    let wc := if attrs.ignore_bound then wc else wc ++ [field.ty]
    (GItem.item i, wc)

/-- `derive_variant_fields_expr` from the source: skip-filter the bindings;
with no active field emit `Ok(())`; with exactly one active non-iterable
field emit the direct `ToCss::to_css(#first, dest)` bypass (adding its trait
bound unless `ignore_bound`); otherwise build a `SequenceWriter` block from
the per-field statements. -/
def derive_variant_fields_expr (bindings : List Binding) (wc : List String)
    (sep : String) : GExpr × List String :=
  match activeOf bindings with
  | [] => (GExpr.ok, wc)
  | (i, first) :: rest =>
    if !first.attrs.iterable && rest.isEmpty then
      let wc := if first.attrs.ignore_bound then wc else wc ++ [first.ty]
      (GExpr.toCssField i, wc)
    else
      let r0 := derive_single_field_expr i first first.attrs wc
      let folded := rest.foldl
        (fun acc p =>
          let r := derive_single_field_expr p.1 p.2 p.2.attrs acc.2
          (acc.1 ++ [r.1], r.2))
        ([r0.1], r0.2)
      (GExpr.seqWriter sep folded.1, folded.2)

/-- The base expression of `derive_variant_arm` (the `let mut expr = ...`
block of the source, before the `dimension`/`function` wrapping): keyword
variants assert zero bindings and write the keyword literal; variants with
bindings go through `derive_variant_fields_expr`; bindingless variants write
the canonical identifier. -/
def derive_variant_base (variant : Variant) (wc : List String) (sep : String) :
    Except String (GExpr × List String) :=
  match variant.attrs.keyword with
  | some keyword =>
    if variant.bindings.isEmpty then Except.ok (GExpr.writeStr keyword, wc)
    else Except.error "assertion failed: bindings.is_empty()"
  | none =>
    if !variant.bindings.isEmpty then
      Except.ok (derive_variant_fields_expr variant.bindings wc sep)
    else
      Except.ok (GExpr.writeStr (to_css_identifier variant.ident), wc)

/-- `derive_variant_arm` from the source: check the `dimension` assertions
(raw binding count exactly one; no `function`/`keyword` on the same variant),
build the base expression, then apply the `dimension` suffix or the
`function` call wrapping. -/
def derive_variant_arm (variant : Variant) (wc : List String) :
    Except String (GExpr × List String) :=
  if variant.attrs.dimension && !(variant.bindings.length == 1) then
    Except.error "assertion failed: bindings.len() == 1"
  else if variant.attrs.dimension &&
      !(variant.attrs.function.isNone && variant.attrs.keyword.isNone) then
    Except.error "That makes no sense"
  else
    match derive_variant_base variant wc
      (if variant.attrs.comma then ", " else " ") with
    | Except.error e => Except.error e
    | Except.ok (expr, wc) =>
      if variant.attrs.dimension then
        Except.ok (GExpr.seq expr
          (GExpr.writeStr (to_css_identifier variant.ident)), wc)
      else
        match variant.attrs.function with
        | some ov =>
          Except.ok (GExpr.seq
            (GExpr.writeStr ((ov.getD (to_css_identifier variant.ident)) ++ "("))
            (GExpr.seq expr (GExpr.writeStr ")")), wc)
        | none => Except.ok (expr, wc)

/-- The per-variant loop of `derive` (`s.each_variant`), threading the
where clause through the arms in declaration order. -/
def derive_arms (variants : List Variant) (arms : List GExpr) (wc : List String) :
    Except String (List GExpr × List String) :=
  match variants with
  | [] => Except.ok (arms, wc)
  | v :: vs =>
    match derive_variant_arm v wc with
    | Except.error e => Except.error e
    | Except.ok (e, wc) => derive_arms vs (arms ++ [e]) wc

/-- `derive` from the source: on an enum input, reject the type-level
`function` and `comma` directives; then generate every variant's arm. -/
def derive (input : DeriveInput) : Except String (List GExpr × List String) :=
  if input.isEnum && input.attrs.function.isSome then
    Except.error "#[css(function)] is not allowed on enums"
  else if input.isEnum && input.attrs.comma then
    Except.error "#[css(comma)] is not allowed on enums"
  else
    derive_arms input.variants [] []

/-- Runtime model of one binding's value.  A directly-rendered field is
modelled by the text its own `to_css` writes together with the success flag
of that write (`ok = false` means the write fails after emitting `out`).
An iterable field is modelled by the list of its elements' renders. -/
inductive FieldVal where
  | single (out : String) (ok : Bool)
  | coll (elems : List (String × Bool))
deriving DecidableEq

instance : Inhabited FieldVal := ⟨FieldVal.single "" true⟩

/-- The render a field's own `to_css` performs (direct, non-iterated). -/
def FieldVal.renderSingle : FieldVal → String × Bool
  | .single out ok => (out, ok)
  | .coll _ => ("", true)

/-- The element renders of an iterable field's collection. -/
def FieldVal.elems : FieldVal → List (String × Bool)
  | .single _ _ => []
  | .coll es => es

/-- Look a binding's runtime value up by index. -/
def lookupField (env : List FieldVal) (i : Nat) : FieldVal :=
  env.getD i default

/-- Modelled from the spec: one `item` call of the sequence-writer
collaborator (`style_traits::values::SequenceWriter`, not in the listed
unit): "writes the separator before every item except the first" refined by
"between successive non-empty items ... empty iterable output ... contributes
zero items and zero separators".  State is the buffer written so far plus a
flag recording whether any previous item produced output; an item that
produces output is preceded by the separator exactly when that flag is set,
and the item's own failure is returned. -/
def writerItem (sep : String) (st : String × Bool) (rw : String × Bool) :
    (String × Bool) × Bool :=
  if rw.1 = "" then (st, rw.2)
  else if st.2 then ((st.1 ++ sep ++ rw.1, true), rw.2)
  else ((st.1 ++ rw.1, true), rw.2)

/-- Run a list of renders as successive sequence-writer items,
short-circuiting at the first failure. -/
def runElems (sep : String) (st : String × Bool) :
    List (String × Bool) → (String × Bool) × Bool
  | [] => (st, true)
  | rw :: rws =>
    let r := writerItem sep st rw
    if r.2 then runElems sep r.1 rws else r

/-- Interpret one generated sequence-writer statement. -/
def runGItem (env : List FieldVal) (sep : String) (st : String × Bool) :
    GItem → (String × Bool) × Bool
  | .item i => writerItem sep st (lookupField env i).renderSingle
  | .iterItems i => runElems sep st (lookupField env i).elems
  | .iterIfEmpty i fallback =>
    if ((lookupField env i).elems).isEmpty then writerItem sep st (fallback, true)
    else runElems sep st (lookupField env i).elems

/-- Interpret a list of generated sequence-writer statements,
short-circuiting at the first failure (the `?` operator). -/
def runGItems (env : List FieldVal) (sep : String) (st : String × Bool) :
    List GItem → (String × Bool) × Bool
  | [] => (st, true)
  | it :: its =>
    let r := runGItem env sep st it
    if r.2 then runGItems env sep r.1 its else r

/-- Interpret a generated arm expression against a runtime environment,
appending to a buffer and returning the buffer plus the success flag. -/
def runGExpr (env : List FieldVal) (buf : String) : GExpr → String × Bool
  | .writeStr s => (buf ++ s, true)
  | .ok => (buf, true)
  | .toCssField i =>
    let rw := (lookupField env i).renderSingle
    (buf ++ rw.1, rw.2)
  | .seq a b =>
    let r := runGExpr env buf a
    if r.2 then runGExpr env r.1 b else r
  | .seqWriter sep items =>
    let r := runGItems env sep (buf, false) items
    (r.1.1, r.2)

/-- The bound contributed by one active field: its declared type, unless the
field is iterable or `ignore_bound`. -/
def fieldBound (b : Binding) : List String :=
  if !b.attrs.iterable && !b.attrs.ignore_bound then [b.ty] else []

/-- The bounds contributed by a list of indexed active fields, in order. -/
def pairBounds : List (Nat × Binding) → List String
  | [] => []
  | p :: ps => fieldBound p.2 ++ pairBounds ps

/-- The trait bounds a variant's binding list must contribute: the declared
types of its fields that are not skip, not iterable and not `ignore_bound`,
in declaration order. -/
def boundsOf : List Binding → List String
  | [] => []
  | b :: bs =>
    (if !b.attrs.skip && !b.attrs.iterable && !b.attrs.ignore_bound
     then [b.ty] else []) ++ boundsOf bs

/-- Joining with a separator before every element (the shape the
sequence writer produces after its first non-empty item). -/
def preJoin (sep : String) : List String → String
  | [] => ""
  | s :: rest => sep ++ s ++ preJoin sep rest

/-- Joining a list of outputs with a separator between successive elements. -/
def sepJoin (sep : String) : List String → String
  | [] => ""
  | s :: rest => s ++ preJoin sep rest

/-- Whether a character list begins with the two-character separator `", "`. -/
def startsCS : List Char → Bool
  | c :: d :: _ => c == ',' && d == ' '
  | _ => false

/-- The number of positions at which `", "` occurs in a character list. -/
def countCS : List Char → Nat
  | [] => 0
  | c :: rest => (if startsCS (c :: rest) then 1 else 0) + countCS rest

/-- The sequence-writer statement generated for one indexed active field
(the first component of `derive_single_field_expr`, which does not depend
on the threaded where clause). -/
def pairItem (p : Nat × Binding) : GItem :=
  (derive_single_field_expr p.1 p.2 p.2.attrs []).1

/-- The post-processing wrapping `derive_variant_arm` applies to the base
expression: the `dimension` identifier suffix, else the `function` call
wrapping, else nothing. -/
def armWrap (v : Variant) (e : GExpr) : GExpr :=
  if v.attrs.dimension then
    GExpr.seq e (GExpr.writeStr (to_css_identifier v.ident))
  else
    match v.attrs.function with
    | some ov =>
      GExpr.seq (GExpr.writeStr ((ov.getD (to_css_identifier v.ident)) ++ "("))
        (GExpr.seq e (GExpr.writeStr ")"))
    | none => e

theorem dsfe_fst (i : Nat) (b : Binding) (wc : List String) :
    (derive_single_field_expr i b b.attrs wc).1 = pairItem (i, b) := by
  obtain ⟨ty, ie, ig, it, sk⟩ := b
  cases it <;> cases ig <;> cases ie <;> rfl

theorem dsfe_snd (i : Nat) (b : Binding) (wc : List String) :
    (derive_single_field_expr i b b.attrs wc).2 = wc ++ fieldBound b := by
  obtain ⟨ty, ie, ig, it, sk⟩ := b
  cases it <;> cases ig <;> cases ie <;>
    simp [derive_single_field_expr, fieldBound]

theorem pairItem_item (p : Nat × Binding) (h : p.2.attrs.iterable = false) :
    pairItem p = GItem.item p.1 := by
  simp [pairItem, derive_single_field_expr, h]

theorem pairItem_iter_if_empty (p : Nat × Binding) (s : String)
    (hit : p.2.attrs.iterable = true) (hie : p.2.attrs.if_empty = some s) :
    pairItem p = GItem.iterIfEmpty p.1 s := by
  simp [pairItem, derive_single_field_expr, hit, hie]

theorem fields_fold (rest : List (Nat × Binding)) :
    ∀ (its : List GItem) (w : List String),
      rest.foldl
        (fun acc p =>
          let r := derive_single_field_expr p.1 p.2 p.2.attrs acc.2
          (acc.1 ++ [r.1], r.2))
        (its, w) =
      (its ++ rest.map pairItem, w ++ pairBounds rest) := by
  induction rest with
  | nil => intro its w; simp [pairBounds]
  | cons p ps ih =>
    intro its w
    simp only [List.foldl_cons, List.map_cons, pairBounds]
    rw [ih, dsfe_fst, dsfe_snd]
    simp [List.append_assoc]

theorem pairBounds_indexFrom (bs : List Binding) :
    ∀ n : Nat,
      pairBounds ((indexFrom n bs).filter (fun p => !p.2.attrs.skip)) =
        boundsOf bs := by
  induction bs with
  | nil => intro n; rfl
  | cons b bs ih =>
    intro n
    simp only [indexFrom, List.filter_cons]
    cases hsk : b.attrs.skip with
    | false => simp [hsk, pairBounds, fieldBound, boundsOf, ih]
    | true => simp [hsk, boundsOf, ih]

theorem pairBounds_active (bs : List Binding) :
    pairBounds (activeOf bs) = boundsOf bs :=
  pairBounds_indexFrom bs 0

theorem activeOf_all_skip (bs : List Binding)
    (h : ∀ b ∈ bs, b.attrs.skip = true) : activeOf bs = [] := by
  have aux : ∀ (l : List Binding) (n : Nat), (∀ b ∈ l, b.attrs.skip = true) →
      (indexFrom n l).filter (fun p => !p.2.attrs.skip) = [] := by
    intro l
    induction l with
    | nil => intro n _; rfl
    | cons b l ih =>
      intro n hl
      simp only [indexFrom, List.filter_cons]
      rw [hl b (by simp)]
      simpa using ih (n + 1) (fun x hx => hl x (by simp [hx]))
  exact aux bs 0 h

theorem fields_expr_nil_active (bs : List Binding) (wc : List String)
    (sep : String) (h : activeOf bs = []) :
    derive_variant_fields_expr bs wc sep = (GExpr.ok, wc) := by
  unfold derive_variant_fields_expr
  rw [h]

theorem fields_expr_bypass (bs : List Binding) (wc : List String) (sep : String)
    (i : Nat) (b : Binding) (h : activeOf bs = [(i, b)])
    (hit : b.attrs.iterable = false) :
    derive_variant_fields_expr bs wc sep =
      (GExpr.toCssField i, if b.attrs.ignore_bound then wc else wc ++ [b.ty]) := by
  unfold derive_variant_fields_expr
  rw [h]
  simp [hit]

theorem fields_expr_single_iter (bs : List Binding) (wc : List String)
    (sep : String) (i : Nat) (b : Binding) (h : activeOf bs = [(i, b)])
    (hit : b.attrs.iterable = true) :
    derive_variant_fields_expr bs wc sep =
      (GExpr.seqWriter sep [pairItem (i, b)], wc) := by
  unfold derive_variant_fields_expr
  rw [h]
  simp only [hit, Bool.not_true, Bool.false_and, if_neg (by simp : ¬(false = true))]
  rw [show (([] : List (Nat × Binding)).foldl
      (fun acc p =>
        let r := derive_single_field_expr p.1 p.2 p.2.attrs acc.2
        (acc.1 ++ [r.1], r.2))
      ([(derive_single_field_expr i b b.attrs wc).1],
        (derive_single_field_expr i b b.attrs wc).2) =
      ([(derive_single_field_expr i b b.attrs wc).1],
        (derive_single_field_expr i b b.attrs wc).2)) from rfl]
  rw [dsfe_fst, dsfe_snd]
  have : fieldBound b = [] := by simp [fieldBound, hit]
  simp [this]

theorem fields_expr_multi (bs : List Binding) (wc : List String) (sep : String)
    (i : Nat) (b : Binding) (q : Nat × Binding) (rest : List (Nat × Binding))
    (h : activeOf bs = (i, b) :: q :: rest) :
    derive_variant_fields_expr bs wc sep =
      (GExpr.seqWriter sep (((i, b) :: q :: rest).map pairItem),
        wc ++ pairBounds ((i, b) :: q :: rest)) := by
  unfold derive_variant_fields_expr
  rw [h]
  simp only [List.isEmpty_cons, Bool.and_false, if_neg (by simp : ¬(false = true))]
  rw [fields_fold]
  rw [dsfe_fst, dsfe_snd]
  simp [pairBounds, List.append_assoc]

theorem fields_expr_wc (bs : List Binding) (wc : List String) (sep : String) :
    (derive_variant_fields_expr bs wc sep).2 = wc ++ boundsOf bs := by
  rw [← pairBounds_active]
  rcases h : activeOf bs with _ | ⟨⟨i, b⟩, rest⟩
  · rw [fields_expr_nil_active bs wc sep h]
    simp [pairBounds]
  · cases rest with
    | nil =>
      cases hit : b.attrs.iterable with
      | false =>
        rw [fields_expr_bypass bs wc sep i b h hit]
        simp [pairBounds, fieldBound, hit]
        cases hig : b.attrs.ignore_bound <;> simp [hig]
      | true =>
        rw [fields_expr_single_iter bs wc sep i b h hit]
        simp [pairBounds, fieldBound, hit]
    | cons q rest' =>
      rw [fields_expr_multi bs wc sep i b q rest' h]

theorem arm_plain (v : Variant) (wc : List String)
    (hk : v.attrs.keyword = none) (hf : v.attrs.function = none)
    (hd : v.attrs.dimension = false) (hb : v.bindings ≠ []) :
    derive_variant_arm v wc =
      Except.ok (derive_variant_fields_expr v.bindings wc
        (if v.attrs.comma then ", " else " ")) := by
  unfold derive_variant_arm derive_variant_base
  rcases hfe : derive_variant_fields_expr v.bindings wc
    (if v.attrs.comma then ", " else " ") with ⟨e, w⟩
  simp [hk, hf, hd, List.isEmpty_eq_false.mpr hb, hfe]

theorem arm_no_bindings (v : Variant) (wc : List String)
    (hk : v.attrs.keyword = none) (hf : v.attrs.function = none)
    (hd : v.attrs.dimension = false) (hb : v.bindings = []) :
    derive_variant_arm v wc =
      Except.ok (GExpr.writeStr (to_css_identifier v.ident), wc) := by
  unfold derive_variant_arm derive_variant_base
  simp [hk, hf, hd, hb]

theorem writerItem_shift (sep b s : String) (flag : Bool) (rw : String × Bool) :
    writerItem sep (b ++ s, flag) rw =
      ((b ++ (writerItem sep (s, flag) rw).1.1, (writerItem sep (s, flag) rw).1.2),
        (writerItem sep (s, flag) rw).2) := by
  unfold writerItem
  by_cases h1 : rw.1 = ""
  · simp [h1]
  · cases flag <;> simp [h1, String.append_assoc]

theorem runElems_shift (sep b : String) (rws : List (String × Bool)) :
    ∀ (s : String) (flag : Bool),
      runElems sep (b ++ s, flag) rws =
        ((b ++ (runElems sep (s, flag) rws).1.1, (runElems sep (s, flag) rws).1.2),
          (runElems sep (s, flag) rws).2) := by
  induction rws with
  | nil => intro s flag; rfl
  | cons rw rws ih =>
    intro s flag
    simp only [runElems]
    rw [writerItem_shift]
    rcases hw : writerItem sep (s, flag) rw with ⟨⟨o, fl⟩, ok⟩
    cases ok <;> simp [ih]

theorem runGItem_shift (env : List FieldVal) (sep b : String) (it : GItem) :
    ∀ (s : String) (flag : Bool),
      runGItem env sep (b ++ s, flag) it =
        ((b ++ (runGItem env sep (s, flag) it).1.1,
          (runGItem env sep (s, flag) it).1.2),
          (runGItem env sep (s, flag) it).2) := by
  intro s flag
  cases it with
  | item i => exact writerItem_shift sep b s flag _
  | iterItems i => exact runElems_shift sep b _ s flag
  | iterIfEmpty i fallback =>
    simp only [runGItem]
    by_cases he : ((lookupField env i).elems).isEmpty
    · simp [he, writerItem_shift]
    · simp [he, runElems_shift]

theorem runGItems_shift (env : List FieldVal) (sep b : String)
    (its : List GItem) :
    ∀ (s : String) (flag : Bool),
      runGItems env sep (b ++ s, flag) its =
        ((b ++ (runGItems env sep (s, flag) its).1.1,
          (runGItems env sep (s, flag) its).1.2),
          (runGItems env sep (s, flag) its).2) := by
  induction its with
  | nil => intro s flag; rfl
  | cons it its ih =>
    intro s flag
    simp only [runGItems]
    rw [runGItem_shift]
    rcases hw : runGItem env sep (s, flag) it with ⟨⟨o, fl⟩, ok⟩
    cases ok <;> simp [ih]

theorem runGExpr_shift (env : List FieldVal) (e : GExpr) :
    ∀ (b s : String),
      runGExpr env (b ++ s) e =
        (b ++ (runGExpr env s e).1, (runGExpr env s e).2) := by
  induction e with
  | writeStr t => intro b s; simp [runGExpr, String.append_assoc]
  | ok => intro b s; rfl
  | toCssField i => intro b s; simp [runGExpr, String.append_assoc]
  | seq a b' iha ihb =>
    intro b s
    simp only [runGExpr]
    rw [iha]
    rcases ha : runGExpr env s a with ⟨o, ok⟩
    cases ok <;> simp [ihb]
  | seqWriter sep items =>
    intro b s
    simp only [runGExpr]
    rw [runGItems_shift]

theorem runGExpr_pre (env : List FieldVal) (p : String) (e : GExpr) :
    runGExpr env p e = (p ++ (runGExpr env "" e).1, (runGExpr env "" e).2) := by
  have h : runGExpr env (p ++ "") e =
      (p ++ (runGExpr env "" e).1, (runGExpr env "" e).2) :=
    runGExpr_shift env e p ""
  rwa [String.append_empty] at h

theorem runElems_ok_all (sep : String) (outs : List String) :
    ∀ buf : String, (∀ s ∈ outs, s ≠ "") →
      runElems sep (buf, true) (outs.map (fun s => (s, true))) =
        ((buf ++ preJoin sep outs, true), true) := by
  induction outs with
  | nil => intro buf _; simp [runElems, preJoin, String.append_empty]
  | cons o os ih =>
    intro buf h
    have ho : o ≠ "" := h o (by simp)
    have hw : writerItem sep (buf, true) (o, true) =
        ((buf ++ sep ++ o, true), true) := by
      unfold writerItem
      rw [if_neg ho]
      rfl
    simp only [List.map_cons, runElems, hw]
    rw [if_pos trivial]
    rw [ih (buf ++ sep ++ o) (fun s hs => h s (by simp [hs]))]
    simp [preJoin, String.append_assoc]

theorem runElems_fresh (sep o : String) (os : List String) (buf : String)
    (h : ∀ s ∈ o :: os, s ≠ "") :
    runElems sep (buf, false) ((o :: os).map (fun s => (s, true))) =
      ((buf ++ sepJoin sep (o :: os), true), true) := by
  have ho : o ≠ "" := h o (by simp)
  simp only [List.map_cons, runElems, writerItem]
  rw [if_neg ho]
  simp only [Bool.false_eq_true, if_neg (by simp : ¬(False : Prop)), if_pos rfl]
  rw [runElems_ok_all sep os (buf ++ o) (fun s hs => h s (by simp [hs]))]
  simp [sepJoin, String.append_assoc]

theorem runGItems_items (env : List FieldVal) (sep : String)
    (pairs : List (Nat × Binding)) :
    ∀ st : String × Bool,
      runGItems env sep st (pairs.map (fun p => GItem.item p.1)) =
        runElems sep st (pairs.map (fun p => (lookupField env p.1).renderSingle)) := by
  induction pairs with
  | nil => intro st; rfl
  | cons p ps ih =>
    intro st
    simp only [List.map_cons, runGItems, runElems, runGItem]
    rcases hw : writerItem sep st (lookupField env p.1).renderSingle with ⟨st', ok⟩
    cases ok <;> simp [ih]

theorem countCS_space (t : List Char) : countCS (' ' :: t) = countCS t := by
  have h : startsCS (' ' :: t) = false := by cases t <;> rfl
  simp [countCS, h]

theorem countCS_append_sep : ∀ p t : List Char, countCS p = 0 →
    countCS (p ++ ',' :: ' ' :: t) = 1 + countCS t := by
  intro p
  induction p with
  | nil =>
    intro t _
    show countCS (',' :: ' ' :: t) = 1 + countCS t
    rw [show countCS (',' :: ' ' :: t) =
      (if startsCS (',' :: ' ' :: t) then 1 else 0) + countCS (' ' :: t) from rfl]
    rw [show startsCS (',' :: ' ' :: t) = true from rfl, if_pos rfl, countCS_space]
  | cons c p ih =>
    intro t h
    cases p with
    | nil =>
      show countCS (c :: ',' :: ' ' :: t) = 1 + countCS t
      rw [show countCS (c :: ',' :: ' ' :: t) =
        (if startsCS (c :: ',' :: ' ' :: t) then 1 else 0) +
          countCS (',' :: ' ' :: t) from rfl]
      rw [show startsCS (c :: ',' :: ' ' :: t) = (c == ',' && ',' == ' ') from rfl]
      rw [show ((',' : Char) == ' ') = false from rfl]
      simp only [Bool.and_false, if_neg (by simp : ¬(False : Prop)),
        Bool.false_eq_true, if_false, Nat.zero_add]
      exact ih t rfl
    | cons d p' =>
      have hcd : countCS (c :: d :: p') =
          (if startsCS (c :: d :: p') then 1 else 0) + countCS (d :: p') := rfl
      rw [hcd] at h
      cases hs : startsCS (c :: d :: p') with
      | true => rw [hs, if_pos rfl] at h; omega
      | false =>
        rw [hs] at h
        simp at h
        show countCS (c :: (d :: p' ++ ',' :: ' ' :: t)) = 1 + countCS t
        rw [show countCS (c :: (d :: p' ++ ',' :: ' ' :: t)) =
          (if startsCS (c :: (d :: p' ++ ',' :: ' ' :: t)) then 1 else 0) +
            countCS (d :: p' ++ ',' :: ' ' :: t) from rfl]
        rw [show startsCS (c :: (d :: p' ++ ',' :: ' ' :: t)) =
          (c == ',' && d == ' ') from rfl]
        rw [show startsCS (c :: d :: p') = (c == ',' && d == ' ') from rfl] at hs
        rw [hs]
        simp only [Bool.false_eq_true, if_false, Nat.zero_add]
        exact ih t h

theorem countCS_sepJoin : ∀ (os : List String) (o : String),
    countCS o.data = 0 → (∀ s ∈ os, countCS s.data = 0) →
    countCS (sepJoin ", " (o :: os)).data = os.length := by
  intro os
  induction os with
  | nil =>
    intro o h _
    show countCS (o ++ preJoin ", " []).data = 0
    rw [show preJoin ", " ([] : List String) = "" from rfl, String.append_empty]
    exact h
  | cons o2 os' ih =>
    intro o h hms
    have key : (sepJoin ", " (o :: o2 :: os')).data =
        o.data ++ ',' :: ' ' :: (sepJoin ", " (o2 :: os')).data := by
      show (o ++ preJoin ", " (o2 :: os')).data = _
      rw [show preJoin ", " (o2 :: os') = ", " ++ o2 ++ preJoin ", " os' from rfl]
      rw [show sepJoin ", " (o2 :: os') = o2 ++ preJoin ", " os' from rfl]
      simp [String.data_append, List.append_assoc]
    rw [key, countCS_append_sep _ _ h,
      ih o2 (hms o2 (by simp)) (fun s hs => hms s (by simp [hs]))]
    simp [Nat.add_comm]

theorem arm_dim_fail_len (v : Variant) (wc : List String)
    (h : (v.attrs.dimension && !(v.bindings.length == 1)) = true) :
    derive_variant_arm v wc =
      Except.error "assertion failed: bindings.len() == 1" := by
  unfold derive_variant_arm
  rw [h]
  rfl

theorem arm_dim_fail_mix (v : Variant) (wc : List String)
    (h1 : (v.attrs.dimension && !(v.bindings.length == 1)) = false)
    (h2 : (v.attrs.dimension &&
      !(v.attrs.function.isNone && v.attrs.keyword.isNone)) = true) :
    derive_variant_arm v wc = Except.error "That makes no sense" := by
  unfold derive_variant_arm
  rw [h1, h2]
  rfl

theorem arm_base_error (v : Variant) (wc : List String) (msg : String)
    (h1 : (v.attrs.dimension && !(v.bindings.length == 1)) = false)
    (h2 : (v.attrs.dimension &&
      !(v.attrs.function.isNone && v.attrs.keyword.isNone)) = false)
    (hbase : derive_variant_base v wc (if v.attrs.comma then ", " else " ") =
      Except.error msg) :
    derive_variant_arm v wc = Except.error msg := by
  unfold derive_variant_arm
  rw [h1, h2]
  simp only [Bool.false_eq_true, if_false]
  rw [hbase]

theorem arm_of_base (v : Variant) (wc bw : List String) (be : GExpr)
    (h1 : (v.attrs.dimension && !(v.bindings.length == 1)) = false)
    (h2 : (v.attrs.dimension &&
      !(v.attrs.function.isNone && v.attrs.keyword.isNone)) = false)
    (hbase : derive_variant_base v wc (if v.attrs.comma then ", " else " ") =
      Except.ok (be, bw)) :
    derive_variant_arm v wc = Except.ok (armWrap v be, bw) := by
  unfold derive_variant_arm armWrap
  rw [h1, h2]
  simp only [Bool.false_eq_true, if_false]
  rw [hbase]
  cases hd : v.attrs.dimension with
  | true => rfl
  | false => cases hfn : v.attrs.function <;> rfl

/-- C1 (amended): for a variant with no keyword, function or dimension
directive, the generated arm writes exactly the canonical identifier when
the variant declares no bindings at all; when it declares bindings that are
all marked skip (empty active set), the arm is `Ok(())` and writes nothing,
not the identifier. -/
theorem C1_empty_active_amended (v : Variant) (wc : List String)
    (hk : v.attrs.keyword = none) (hf : v.attrs.function = none)
    (hd : v.attrs.dimension = false) :
    (v.bindings = [] →
      derive_variant_arm v wc =
        Except.ok (GExpr.writeStr (to_css_identifier v.ident), wc) ∧
      ∀ env : List FieldVal,
        runGExpr env "" (GExpr.writeStr (to_css_identifier v.ident)) =
          (to_css_identifier v.ident, true)) ∧
    (v.bindings ≠ [] → (∀ b ∈ v.bindings, b.attrs.skip = true) →
      derive_variant_arm v wc = Except.ok (GExpr.ok, wc) ∧
      ∀ env : List FieldVal, runGExpr env "" GExpr.ok = ("", true)) := by
  constructor
  · intro hb
    refine ⟨arm_no_bindings v wc hk hf hd hb, fun env => ?_⟩
    simp [runGExpr, String.empty_append]
  · intro hb hsk
    have hact := activeOf_all_skip v.bindings hsk
    rw [arm_plain v wc hk hf hd hb, fields_expr_nil_active _ _ _ hact]
    exact ⟨rfl, fun env => rfl⟩

/-- C1 counterexample: a variant `Foo` with one field marked skip (so its
active field set is empty) generates the arm `Ok(())`, which writes the
empty string — not the canonical identifier `"foo"` the claim requires. -/
theorem C1_empty_active_counterexample :
    derive_variant_arm
        ⟨"Foo", [⟨"T", ⟨none, false, false, true⟩⟩], ⟨none, false, false, none, none⟩⟩
        [] =
      Except.ok (GExpr.ok, []) ∧
    runGExpr [FieldVal.single "x" true] "" GExpr.ok = ("", true) ∧
    to_css_identifier "Foo" = "foo" ∧
    ("" : String) ≠ "foo" := by
  refine ⟨rfl, rfl, rfl, by decide⟩

/-- C1 witness: the amended theorem applied to a concrete bindingless
variant `Foo` and to nothing else. -/
theorem C1_empty_active_amended_witness :
    derive_variant_arm ⟨"Foo", [], ⟨none, false, false, none, none⟩⟩ [] =
      Except.ok (GExpr.writeStr (to_css_identifier "Foo"), []) ∧
    runGExpr [] "" (GExpr.writeStr (to_css_identifier "Foo")) =
      (to_css_identifier "Foo", true) := by
  have h := (C1_empty_active_amended
    ⟨"Foo", [], ⟨none, false, false, none, none⟩⟩ [] rfl rfl rfl).1 rfl
  exact ⟨h.1, h.2 []⟩

/-- C2: for a variant whose active field set is exactly one non-iterable
field, `derive_variant_fields_expr` emits the direct bypass
`ToCss::to_css(#first, dest)`, and that bypass has, on every environment
and buffer, exactly the output and failure behavior of the general
sequence-writer path applied to that single field. -/
theorem C2_bypass_equiv (bindings : List Binding) (wc : List String)
    (sep : String) (i : Nat) (b : Binding)
    (hact : activeOf bindings = [(i, b)])
    (hit : b.attrs.iterable = false) :
    (derive_variant_fields_expr bindings wc sep).1 = GExpr.toCssField i ∧
    ∀ (env : List FieldVal) (buf : String),
      runGExpr env buf (GExpr.toCssField i) =
        runGExpr env buf (GExpr.seqWriter sep [pairItem (i, b)]) := by
  constructor
  · rw [fields_expr_bypass bindings wc sep i b hact hit]
  · intro env buf
    rw [pairItem_item (i, b) hit]
    rcases hr : (lookupField env i).renderSingle with ⟨out, ok⟩
    simp only [runGExpr, runGItems, runGItem, writerItem, hr]
    by_cases ho : out = ""
    · subst ho
      cases ok <;> simp [runGItems, String.append_empty]
    · cases ok <;> simp [ho, runGItems]

/-- C2 witness: the bypass equivalence at a concrete one-field variant and
a concrete environment. -/
theorem C2_bypass_equiv_witness :
    (derive_variant_fields_expr [⟨"T", noFieldAttrs⟩] [] " ").1 =
      GExpr.toCssField 0 ∧
    runGExpr [FieldVal.single "a" true] "" (GExpr.toCssField 0) =
      runGExpr [FieldVal.single "a" true] ""
        (GExpr.seqWriter " " [pairItem (0, ⟨"T", noFieldAttrs⟩)]) := by
  have h := C2_bypass_equiv [⟨"T", noFieldAttrs⟩] [] " " 0 ⟨"T", noFieldAttrs⟩
    rfl rfl
  exact ⟨h.1, h.2 [FieldVal.single "a" true] ""⟩

/-- C5: generation fails for any variant with `dimension` whose raw binding
count is not exactly one, or that also carries a `function` or `keyword`
directive: `derive_variant_arm` returns an error, never a generated arm. -/
theorem C5_dimension_rejects (v : Variant) (wc : List String)
    (hd : v.attrs.dimension = true)
    (hbad : v.bindings.length ≠ 1 ∨ v.attrs.function.isSome = true ∨
      v.attrs.keyword.isSome = true) :
    ∃ msg : String, derive_variant_arm v wc = Except.error msg := by
  cases hlen : (v.bindings.length == 1) with
  | false =>
    exact ⟨_, arm_dim_fail_len v wc (by rw [hd, hlen]; rfl)⟩
  | true =>
    have h1 : (v.attrs.dimension && !(v.bindings.length == 1)) = false := by
      rw [hd, hlen]
      rfl
    rcases hbad with h | h | h
    · exact absurd (by simpa using hlen) h
    · have hfn : v.attrs.function.isNone = false := by
        rcases Option.isSome_iff_exists.mp h with ⟨f, hfe⟩
        rw [hfe]
        rfl
      refine ⟨_, arm_dim_fail_mix v wc h1 ?_⟩
      rw [hd, hfn]
      rfl
    · have hkw : v.attrs.keyword.isNone = false := by
        rcases Option.isSome_iff_exists.mp h with ⟨k, hke⟩
        rw [hke]
        rfl
      refine ⟨_, arm_dim_fail_mix v wc h1 ?_⟩
      rw [hd, hkw]
      simp

/-- C5 witness: a `dimension` variant that also carries `keyword` (with a
legal binding count of one) is rejected at generation time. -/
theorem C5_dimension_rejects_witness :
    ∃ msg : String,
      derive_variant_arm
        ⟨"D", [⟨"T", noFieldAttrs⟩], ⟨none, false, true, some "x", none⟩⟩ [] =
        Except.error msg :=
  C5_dimension_rejects
    ⟨"D", [⟨"T", noFieldAttrs⟩], ⟨none, false, true, some "x", none⟩⟩ []
    rfl (Or.inr (Or.inr rfl))

/-- C10: on an enum input, `derive` fails whenever the type-level `function`
or `comma` directive is present — for any variant list, including a
singleton one: the rejection is decided by `isEnum` alone. -/
theorem C10_enum_rejects_directives (input : DeriveInput)
    (he : input.isEnum = true)
    (hbad : input.attrs.function.isSome = true ∨ input.attrs.comma = true) :
    ∃ msg : String, derive input = Except.error msg := by
  unfold derive
  cases hfn : input.attrs.function.isSome with
  | true =>
    exact ⟨"#[css(function)] is not allowed on enums", by simp [he, hfn]⟩
  | false =>
    have hc : input.attrs.comma = true := by
      rcases hbad with h | h
      · rw [hfn] at h
        exact absurd h (by simp)
      · exact h
    exact ⟨"#[css(comma)] is not allowed on enums", by simp [he, hfn, hc]⟩

/-- C10 witness: an enum with exactly one variant and the type-level `comma`
directive is rejected. -/
theorem C10_enum_rejects_directives_witness :
    (⟨"E", true, ⟨false, none, true⟩,
      [⟨"V", [], ⟨none, false, false, none, none⟩⟩]⟩ :
        DeriveInput).variants.length = 1 ∧
    ∃ msg : String,
      derive ⟨"E", true, ⟨false, none, true⟩,
        [⟨"V", [], ⟨none, false, false, none, none⟩⟩]⟩ = Except.error msg :=
  ⟨rfl, C10_enum_rejects_directives
    ⟨"E", true, ⟨false, none, true⟩,
      [⟨"V", [], ⟨none, false, false, none, none⟩⟩]⟩ rfl (Or.inr rfl)⟩

/-- C3: for a variant with the `function` directive, the generated arm writes
the resolved function name (the explicit override if provided, else the
canonical identifier) followed by `"("`, then the base fragment's output,
then `")"`; if the base fragment fails partway, the result is the partial
output without the closing `")"`, with failure propagated. -/
theorem C3_function_wrap (v : Variant) (wc bw : List String)
    (ov : Option String) (base : GExpr)
    (hf : v.attrs.function = some ov)
    (hd : v.attrs.dimension = false)
    (hbase : derive_variant_base v wc (if v.attrs.comma then ", " else " ") =
      Except.ok (base, bw)) :
    derive_variant_arm v wc =
      Except.ok (GExpr.seq
        (GExpr.writeStr ((ov.getD (to_css_identifier v.ident)) ++ "("))
        (GExpr.seq base (GExpr.writeStr ")")), bw) ∧
    ∀ env : List FieldVal,
      ((runGExpr env "" base).2 = true →
        runGExpr env "" (GExpr.seq
          (GExpr.writeStr ((ov.getD (to_css_identifier v.ident)) ++ "("))
          (GExpr.seq base (GExpr.writeStr ")"))) =
          ((ov.getD (to_css_identifier v.ident)) ++ "(" ++
            (runGExpr env "" base).1 ++ ")", true)) ∧
      ((runGExpr env "" base).2 = false →
        runGExpr env "" (GExpr.seq
          (GExpr.writeStr ((ov.getD (to_css_identifier v.ident)) ++ "("))
          (GExpr.seq base (GExpr.writeStr ")"))) =
          ((ov.getD (to_css_identifier v.ident)) ++ "(" ++
            (runGExpr env "" base).1, false)) := by
  constructor
  · have h := arm_of_base v wc bw base (by rw [hd]; rfl) (by rw [hd]; rfl) hbase
    rw [h]
    unfold armWrap
    rw [hd, hf]
    rfl
  · intro env
    have hpre := runGExpr_pre env ((ov.getD (to_css_identifier v.ident)) ++ "(")
      base
    constructor
    · intro hok
      simp only [runGExpr, String.empty_append, if_pos trivial]
      rw [hpre, hok]
      simp [runGExpr]
    · intro hfail
      simp only [runGExpr, String.empty_append, if_pos trivial]
      rw [hpre, hfail]
      simp [runGExpr]

/-- C3 witness: a `function = "f"` variant whose single field writes `"3"`
and then fails: the output is `"f(3"` with the failure propagated and no
closing parenthesis. -/
theorem C3_function_wrap_witness :
    runGExpr [FieldVal.single "3" false] ""
      (GExpr.seq (GExpr.writeStr ("f" ++ "("))
        (GExpr.seq (GExpr.toCssField 0) (GExpr.writeStr ")"))) =
      ("f(3", false) := by
  have h := C3_function_wrap
    ⟨"F", [⟨"T", noFieldAttrs⟩], ⟨some (some "f"), false, false, none, none⟩⟩
    [] ["T"] (some "f") (GExpr.toCssField 0) rfl rfl rfl
  exact (h.2 [FieldVal.single "3" false]).2 rfl

/-- C4: for a variant with `dimension`, the generated arm runs the base
fragment and then immediately writes the canonical identifier, so a
successful render is the base output directly followed by the identifier
with no separator. -/
theorem C4_dimension_suffix (v : Variant) (wc bw : List String) (base : GExpr)
    (hd : v.attrs.dimension = true)
    (hf : v.attrs.function = none) (hk : v.attrs.keyword = none)
    (hlen : v.bindings.length = 1)
    (hbase : derive_variant_base v wc (if v.attrs.comma then ", " else " ") =
      Except.ok (base, bw)) :
    derive_variant_arm v wc =
      Except.ok (GExpr.seq base
        (GExpr.writeStr (to_css_identifier v.ident)), bw) ∧
    ∀ env : List FieldVal, (runGExpr env "" base).2 = true →
      runGExpr env "" (GExpr.seq base
        (GExpr.writeStr (to_css_identifier v.ident))) =
        ((runGExpr env "" base).1 ++ to_css_identifier v.ident, true) := by
  constructor
  · have h1 : (v.attrs.dimension && !(v.bindings.length == 1)) = false := by
      rw [hd, hlen]
      rfl
    have h2 : (v.attrs.dimension &&
        !(v.attrs.function.isNone && v.attrs.keyword.isNone)) = false := by
      rw [hd, hf, hk]
      rfl
    have h := arm_of_base v wc bw base h1 h2 hbase
    rw [h]
    unfold armWrap
    rw [hd]
    rfl
  · intro env hok
    simp only [runGExpr]
    rw [hok]
    simp [runGExpr]

/-- C4 witness: a variant `Px` with `dimension` and a single field rendering
`"3"` produces `"3px"`. -/
theorem C4_dimension_suffix_witness :
    derive_variant_arm
        ⟨"Px", [⟨"T", noFieldAttrs⟩], ⟨none, false, true, none, none⟩⟩ [] =
      Except.ok (GExpr.seq (GExpr.toCssField 0)
        (GExpr.writeStr (to_css_identifier "Px")), ["T"]) ∧
    runGExpr [FieldVal.single "3" true] ""
      (GExpr.seq (GExpr.toCssField 0)
        (GExpr.writeStr (to_css_identifier "Px"))) = ("3px", true) := by
  have h := C4_dimension_suffix
    ⟨"Px", [⟨"T", noFieldAttrs⟩], ⟨none, false, true, none, none⟩⟩
    [] ["T"] (GExpr.toCssField 0) rfl rfl rfl rfl rfl
  exact ⟨h.1, h.2 [FieldVal.single "3" true] rfl⟩

/-- C6 (amended): for a variant with `keyword = "foo"` and no `function`
directive, a successful generation forces the variant to have zero bindings
and the arm writes exactly the keyword text, with no separator logic; with a
`function` directive also present the keyword output is additionally
wrapped as a function call, so the unamended claim fails there. -/
theorem C6_keyword_literal_amended (v : Variant) (wc bw : List String)
    (k : String) (e : GExpr)
    (hk : v.attrs.keyword = some k)
    (hf : v.attrs.function = none)
    (hok : derive_variant_arm v wc = Except.ok (e, bw)) :
    v.bindings = [] ∧ e = GExpr.writeStr k ∧
    ∀ (env : List FieldVal) (buf : String),
      runGExpr env buf e = (buf ++ k, true) := by
  have hd : v.attrs.dimension = false := by
    cases hdc : v.attrs.dimension with
    | false => rfl
    | true =>
      exfalso
      cases hlen : (v.bindings.length == 1) with
      | false =>
        rw [arm_dim_fail_len v wc (by rw [hdc, hlen]; rfl)] at hok
        exact absurd hok (by simp)
      | true =>
        rw [arm_dim_fail_mix v wc (by rw [hdc, hlen]; rfl)
          (by rw [hdc, hf, hk]; rfl)] at hok
        exact absurd hok (by simp)
  have hb : v.bindings = [] := by
    cases hbnd : v.bindings with
    | nil => rfl
    | cons x xs =>
      exfalso
      have hbase : derive_variant_base v wc
          (if v.attrs.comma then ", " else " ") =
          Except.error "assertion failed: bindings.is_empty()" := by
        unfold derive_variant_base
        rw [hk, hbnd]
        rfl
      rw [arm_base_error v wc _ (by rw [hd]; rfl) (by rw [hd]; rfl) hbase]
        at hok
      exact absurd hok (by simp)
  have hbase : derive_variant_base v wc (if v.attrs.comma then ", " else " ") =
      Except.ok (GExpr.writeStr k, wc) := by
    unfold derive_variant_base
    rw [hk, hb]
    rfl
  have harm := arm_of_base v wc wc (GExpr.writeStr k)
    (by rw [hd]; rfl) (by rw [hd]; rfl) hbase
  rw [harm] at hok
  have he : e = GExpr.writeStr k := by
    have : armWrap v (GExpr.writeStr k) = GExpr.writeStr k := by
      unfold armWrap
      rw [hd, hf]
      rfl
    rw [this] at hok
    have hpair : GExpr.writeStr k = e ∧ wc = bw := by simpa using hok
    exact hpair.1.symm
  refine ⟨hb, he, fun env buf => ?_⟩
  rw [he]
  rfl

/-- C6 counterexample: a variant with both `keyword = "foo"` and
`function = "f"` generates successfully but renders `"f(foo)"`, not exactly
`"foo"` as the unamended claim requires of every keyword variant. -/
theorem C6_keyword_literal_counterexample :
    derive_variant_arm
        ⟨"Bar", [], ⟨some (some "f"), false, false, some "foo", none⟩⟩ [] =
      Except.ok (GExpr.seq (GExpr.writeStr "f(")
        (GExpr.seq (GExpr.writeStr "foo") (GExpr.writeStr ")")), []) ∧
    runGExpr [] "" (GExpr.seq (GExpr.writeStr "f(")
      (GExpr.seq (GExpr.writeStr "foo") (GExpr.writeStr ")"))) =
      ("f(foo)", true) ∧
    ("f(foo)" : String) ≠ "foo" := by
  refine ⟨rfl, rfl, by decide⟩

/-- C6 witness: the amended theorem applied to a concrete plain keyword
variant. -/
theorem C6_keyword_literal_amended_witness :
    ([] : List Binding) = [] ∧
    runGExpr [] "" (GExpr.writeStr "foo") = ("foo", true) := by
  have h := C6_keyword_literal_amended
    ⟨"Bar", [], ⟨none, false, false, some "foo", none⟩⟩ [] [] "foo"
    (GExpr.writeStr "foo") rfl rfl rfl
  exact ⟨h.1, h.2.2 [] ""⟩

/-- C7: for a variant with no keyword/function/dimension directive whose
active fields are `n ≥ 2` non-iterable fields, the generated arm is a
sequence-writer block whose separator is `", "` when `comma` is set and
`" "` otherwise; when every active field renders a non-empty output
successfully, the rendered text is exactly those outputs joined by the
separator, and with `comma` set (and outputs free of embedded `", "`) the
text contains exactly `n - 1` occurrences of `", "`. -/
theorem C7_comma_separators (v : Variant) (wc : List String)
    (pairs : List (Nat × Binding)) (env : List FieldVal) (outs : List String)
    (hk : v.attrs.keyword = none) (hf : v.attrs.function = none)
    (hd : v.attrs.dimension = false)
    (hact : activeOf v.bindings = pairs)
    (hn : 2 ≤ pairs.length)
    (hiter : ∀ p ∈ pairs, p.2.attrs.iterable = false)
    (hout : pairs.map (fun p => (lookupField env p.1).renderSingle) =
      outs.map (fun s => (s, true)))
    (hne : ∀ s ∈ outs, s ≠ "")
    (hcs : ∀ s ∈ outs, countCS s.data = 0) :
    derive_variant_arm v wc =
      Except.ok (GExpr.seqWriter (if v.attrs.comma then ", " else " ")
        (pairs.map (fun p => GItem.item p.1)), wc ++ boundsOf v.bindings) ∧
    runGExpr env "" (GExpr.seqWriter (if v.attrs.comma then ", " else " ")
      (pairs.map (fun p => GItem.item p.1))) =
      (sepJoin (if v.attrs.comma then ", " else " ") outs, true) ∧
    (v.attrs.comma = true →
      countCS (sepJoin ", " outs).data = pairs.length - 1) := by
  rcases pairs with _ | ⟨⟨pi, pb⟩, _ | ⟨q, rest⟩⟩
  · simp at hn
  · simp at hn
  · have hb : v.bindings ≠ [] := by
      intro h0
      rw [h0] at hact
      simp [activeOf, indexFrom] at hact
    have hmap : ((pi, pb) :: q :: rest).map pairItem =
        ((pi, pb) :: q :: rest).map (fun p => GItem.item p.1) :=
      List.map_congr_left (fun p hp => pairItem_item p (hiter p hp))
    have hbounds : pairBounds ((pi, pb) :: q :: rest) = boundsOf v.bindings := by
      rw [← hact, pairBounds_active]
    have harm : derive_variant_arm v wc = Except.ok
        (GExpr.seqWriter (if v.attrs.comma then ", " else " ")
          (((pi, pb) :: q :: rest).map (fun p => GItem.item p.1)),
          wc ++ boundsOf v.bindings) := by
      rw [arm_plain v wc hk hf hd hb,
        fields_expr_multi v.bindings wc _ pi pb q rest hact, hmap, hbounds]
    have hlen2 : outs.length = ((pi, pb) :: q :: rest).length := by
      have h := congrArg List.length hout
      simpa using h.symm
    rcases outs with _ | ⟨o, os⟩
    · simp at hlen2
    · have hrun : runGExpr env "" (GExpr.seqWriter
          (if v.attrs.comma then ", " else " ")
          (((pi, pb) :: q :: rest).map (fun p => GItem.item p.1))) =
          (sepJoin (if v.attrs.comma then ", " else " ") (o :: os), true) := by
        simp only [runGExpr]
        rw [runGItems_items, hout, runElems_fresh _ o os "" hne]
        simp [String.empty_append]
      refine ⟨harm, hrun, fun _ => ?_⟩
      rw [countCS_sepJoin os o (hcs o (by simp))
        (fun s hs => hcs s (by simp [hs]))]
      simp at hlen2 ⊢
      omega

/-- C7 witness: a `comma` variant with two non-iterable fields rendering
`"a"` and `"b"` produces `"a, b"`, one `", "` occurrence. -/
theorem C7_comma_separators_witness :
    derive_variant_arm
        ⟨"V", [⟨"A", noFieldAttrs⟩, ⟨"B", noFieldAttrs⟩],
          ⟨none, true, false, none, none⟩⟩ [] =
      Except.ok (GExpr.seqWriter ", " [GItem.item 0, GItem.item 1],
        ["A", "B"]) ∧
    runGExpr [FieldVal.single "a" true, FieldVal.single "b" true] ""
      (GExpr.seqWriter ", " [GItem.item 0, GItem.item 1]) = ("a, b", true) ∧
    countCS (sepJoin ", " ["a", "b"]).data = 1 := by
  have h := C7_comma_separators
    ⟨"V", [⟨"A", noFieldAttrs⟩, ⟨"B", noFieldAttrs⟩],
      ⟨none, true, false, none, none⟩⟩ []
    [(0, ⟨"A", noFieldAttrs⟩), (1, ⟨"B", noFieldAttrs⟩)]
    [FieldVal.single "a" true, FieldVal.single "b" true] ["a", "b"]
    rfl rfl rfl rfl (by decide) (by decide) rfl (by decide) (by decide)
  exact ⟨h.1, h.2.1, h.2.2 rfl⟩

/-- C8 (amended): for a variant whose single active field is iterable with
`if_empty = "none"` and which carries no `function` or `dimension`
directive, the generated arm is a sequence-writer block with the
peek-and-fallback statement; rendering an empty collection writes exactly
`"none"` (whatever the `comma` directive says), and rendering a non-empty
collection writes every element as a successive sequence item, joined by the
variant's separator.  With a `function` directive also present the fallback
output is wrapped as a function call instead, so the unamended claim fails
there. -/
theorem C8_iterable_if_empty (v : Variant) (wc : List String) (i : Nat)
    (b : Binding)
    (hk : v.attrs.keyword = none) (hf : v.attrs.function = none)
    (hd : v.attrs.dimension = false)
    (hact : activeOf v.bindings = [(i, b)])
    (hit : b.attrs.iterable = true)
    (hie : b.attrs.if_empty = some "none") :
    derive_variant_arm v wc =
      Except.ok (GExpr.seqWriter (if v.attrs.comma then ", " else " ")
        [GItem.iterIfEmpty i "none"], wc) ∧
    (∀ env : List FieldVal, (lookupField env i).elems = [] →
      runGExpr env "" (GExpr.seqWriter (if v.attrs.comma then ", " else " ")
        [GItem.iterIfEmpty i "none"]) = ("none", true)) ∧
    (∀ (env : List FieldVal) (outs : List String),
      (lookupField env i).elems = outs.map (fun s => (s, true)) →
      outs ≠ [] → (∀ s ∈ outs, s ≠ "") →
      runGExpr env "" (GExpr.seqWriter (if v.attrs.comma then ", " else " ")
        [GItem.iterIfEmpty i "none"]) =
        (sepJoin (if v.attrs.comma then ", " else " ") outs, true)) := by
  have hb : v.bindings ≠ [] := by
    intro h0
    rw [h0] at hact
    simp [activeOf, indexFrom] at hact
  refine ⟨?_, ?_, ?_⟩
  · rw [arm_plain v wc hk hf hd hb,
      fields_expr_single_iter v.bindings wc _ i b hact hit,
      pairItem_iter_if_empty (i, b) "none" hit hie]
  · intro env he
    have hitem : runGItem env (if v.attrs.comma then ", " else " ")
        ("", false) (GItem.iterIfEmpty i "none") = (("none", true), true) := by
      simp only [runGItem]
      rw [he]
      rfl
    simp only [runGExpr, runGItems, hitem]
    rfl
  · intro env outs he hone hnem
    rcases outs with _ | ⟨o, os⟩
    · exact absurd rfl hone
    · have hitem : runGItem env (if v.attrs.comma then ", " else " ")
          ("", false) (GItem.iterIfEmpty i "none") =
          (("" ++ sepJoin (if v.attrs.comma then ", " else " ") (o :: os),
            true), true) := by
        simp only [runGItem]
        rw [he]
        rw [show (((o :: os).map (fun s => (s, true))).isEmpty) = false
          from rfl]
        simp only [Bool.false_eq_true, if_false]
        exact runElems_fresh _ o os "" hnem
      simp only [runGExpr, runGItems, hitem]
      simp [String.empty_append]

/-- C8 counterexample: a variant with one iterable `if_empty = "none"` field
and a `function = "f"` directive generates successfully, and rendering an
empty collection produces `"f(none)"` — not exactly `"none"` as the
unamended claim requires of every such variant. -/
theorem C8_iterable_if_empty_counterexample :
    derive_variant_arm
        ⟨"F", [⟨"T", ⟨some "none", false, true, false⟩⟩],
          ⟨some (some "f"), false, false, none, none⟩⟩ [] =
      Except.ok (GExpr.seq (GExpr.writeStr "f(")
        (GExpr.seq (GExpr.seqWriter " " [GItem.iterIfEmpty 0 "none"])
          (GExpr.writeStr ")")), []) ∧
    runGExpr [FieldVal.coll []] ""
      (GExpr.seq (GExpr.writeStr "f(")
        (GExpr.seq (GExpr.seqWriter " " [GItem.iterIfEmpty 0 "none"])
          (GExpr.writeStr ")"))) = ("f(none)", true) ∧
    ("f(none)" : String) ≠ "none" := by
  refine ⟨rfl, rfl, by decide⟩

/-- C8 witness: a `comma` variant with one iterable `if_empty = "none"`
field, rendered on an empty collection, writes exactly `"none"`. -/
theorem C8_iterable_if_empty_witness :
    derive_variant_arm
        ⟨"W", [⟨"T", ⟨some "none", false, true, false⟩⟩],
          ⟨none, true, false, none, none⟩⟩ [] =
      Except.ok (GExpr.seqWriter ", " [GItem.iterIfEmpty 0 "none"], []) ∧
    runGExpr [FieldVal.coll []] ""
      (GExpr.seqWriter ", " [GItem.iterIfEmpty 0 "none"]) = ("none", true) := by
  have h := C8_iterable_if_empty
    ⟨"W", [⟨"T", ⟨some "none", false, true, false⟩⟩],
      ⟨none, true, false, none, none⟩⟩ [] 0
    ⟨"T", ⟨some "none", false, true, false⟩⟩ rfl rfl rfl rfl rfl rfl
  exact ⟨h.1, h.2.1 [FieldVal.coll []] rfl⟩

/-- C9: whenever `derive_variant_arm` succeeds, the where clause grows by
exactly the declared types of the variant's fields that are not skip, not
iterable and not `ignore_bound`, in declaration order — a bound is added
exactly for the directly-rendered fields, on the bypass path and on the
sequence-writer path alike. -/
theorem C9_bound_collection (v : Variant) (wc bw : List String) (e : GExpr)
    (hok : derive_variant_arm v wc = Except.ok (e, bw)) :
    bw = wc ++ boundsOf v.bindings := by
  cases hx1 : (v.attrs.dimension && !(v.bindings.length == 1)) with
  | true =>
    rw [arm_dim_fail_len v wc hx1] at hok
    exact absurd hok (by simp)
  | false =>
    cases hx2 : (v.attrs.dimension &&
        !(v.attrs.function.isNone && v.attrs.keyword.isNone)) with
    | true =>
      rw [arm_dim_fail_mix v wc hx1 hx2] at hok
      exact absurd hok (by simp)
    | false =>
      rcases hbase : derive_variant_base v wc
        (if v.attrs.comma then ", " else " ") with msg | ⟨be, bw2⟩
      · rw [arm_base_error v wc msg hx1 hx2 hbase] at hok
        exact absurd hok (by simp)
      · rw [arm_of_base v wc bw2 be hx1 hx2 hbase] at hok
        have hpair : armWrap v be = e ∧ bw2 = bw := by simpa using hok
        rw [← hpair.2]
        unfold derive_variant_base at hbase
        cases hkw : v.attrs.keyword with
        | some k =>
          rw [hkw] at hbase
          cases hbnd : v.bindings with
          | nil =>
            rw [hbnd] at hbase
            have hp2 : GExpr.writeStr k = be ∧ wc = bw2 := by simpa using hbase
            rw [← hp2.2]
            simp [boundsOf]
          | cons x xs =>
            rw [hbnd] at hbase
            exact absurd hbase (by simp)
        | none =>
          rw [hkw] at hbase
          cases hbnd : v.bindings with
          | nil =>
            rw [hbnd] at hbase
            have hp2 : GExpr.writeStr (to_css_identifier v.ident) = be ∧
                wc = bw2 := by simpa using hbase
            rw [← hp2.2]
            simp [boundsOf]
          | cons x xs =>
            rw [hbnd] at hbase
            have hp2 : derive_variant_fields_expr (x :: xs) wc
                (if v.attrs.comma then ", " else " ") = (be, bw2) := by
              simpa using hbase
            have hwc := fields_expr_wc (x :: xs) wc
              (if v.attrs.comma then ", " else " ")
            rw [hp2] at hwc
            exact hwc

/-- C9 witness: a variant with a plain field `A`, a skip field `B`, an
`ignore_bound` field `C` and an iterable field `D` adds exactly the bound
for `A`. -/
theorem C9_bound_collection_witness :
    (["A"] : List String) = [] ++ boundsOf
      [⟨"A", noFieldAttrs⟩, ⟨"B", ⟨none, false, false, true⟩⟩,
        ⟨"C", ⟨none, true, false, false⟩⟩, ⟨"D", ⟨none, false, true, false⟩⟩] :=
  C9_bound_collection
    ⟨"M", [⟨"A", noFieldAttrs⟩, ⟨"B", ⟨none, false, false, true⟩⟩,
      ⟨"C", ⟨none, true, false, false⟩⟩, ⟨"D", ⟨none, false, true, false⟩⟩],
      ⟨none, false, false, none, none⟩⟩ [] ["A"]
    (GExpr.seqWriter " " [GItem.item 0, GItem.item 2, GItem.iterItems 3]) rfl

end ToCss
